import Mathlib

/-!
Shallow embedding of the static HTTP file server (`utils.py`, the mature
variant of the repository, together with the pipeline of `server.py`).

Conventions of the embedding:
* Python `str` values are Lean `String`; raw byte sequences (`bytes`) are
  `List Nat` with each entry a byte value; `str.encode()` is UTF-8 encoding.
* Python dicts used as header mappings are association lists in insertion
  order (`List (String × _)`); dict values that may be `str` or `int`
  (`len(content)`) are modelled by the sum type `HVal`.
* Code that can raise an exception is modelled with `Option`: a `none`
  result stands for an uncaught exception (`ValueError`, `KeyError`,
  `AttributeError`).
* The filesystem (`os.path.isfile`, `os.path.isdir`, `open`/`read`) is an
  explicit parameter mapping path strings to file contents and a set of
  directory names.
-/

/-- UTF-8 encoding of one character, as byte values (the encoding used by
Python `str.encode()`). -/
def charUtf8 (c : Char) : List Nat :=
  let n := c.toNat
  if n < 128 then [n]
  else if n < 2048 then [192 + n / 64, 128 + n % 64]
  else if n < 65536 then [224 + n / 4096, 128 + (n / 64) % 64, 128 + n % 64]
  else [240 + n / 262144, 128 + (n / 4096) % 64, 128 + (n / 64) % 64, 128 + n % 64]

/-- `s.encode()`: the UTF-8 bytes of a string. -/
def strBytes (s : String) : List Nat :=
  (s.data.map charUtf8).flatten

/-- Python `s.startswith(p)` (character-level prefix test). -/
def pyStartsWith (s p : String) : Bool :=
  p.data.isPrefixOf s.data

/-- Python `s.endswith(p)` (character-level suffix test). -/
def pyEndsWith (s p : String) : Bool :=
  p.data.isSuffixOf s.data

/-- Python `s.upper()` restricted to ASCII letters (all strings the server
compares this way are ASCII). -/
def pyUpper (s : String) : String :=
  String.mk (s.data.map Char.toUpper)

/-- Python `s.split(c)` for a single-character separator `c`: splits on every
occurrence, keeping empty parts.  The result is never empty. -/
def splitChar (c : Char) : List Char → List (List Char)
  | [] => [[]]
  | x :: rest =>
    match splitChar c rest with
    | [] => [[]]
    | h :: t => if x = c then [] :: h :: t else (x :: h) :: t

/-- Python `s.split(': ')`: splits on every (leftmost, non-overlapping)
occurrence of the two-character separator `": "`, keeping empty parts. -/
def splitColonSpace : List Char → List (List Char)
  | [] => [[]]
  | ':' :: ' ' :: rest => [] :: splitColonSpace rest
  | x :: rest =>
    match splitColonSpace rest with
    | [] => [[]]
    | h :: t => (x :: h) :: t

/-- String-level wrapper for `splitChar`. -/
def pySplitChar (c : Char) (s : String) : List String :=
  (splitChar c s.data).map String.mk

/-- String-level wrapper for `splitColonSpace`. -/
def pySplitColonSpace (s : String) : List String :=
  (splitColonSpace s.data).map String.mk

/-- Python `str.splitlines()` restricted to the `\n`, `\r\n` and `\r`
line boundaries (the only ones HTTP requests contain): a trailing
terminator does not produce a final empty line. -/
def splitlinesAux : List Char → List Char → List String
  | [], acc => if acc.isEmpty then [] else [String.mk acc.reverse]
  | '\r' :: '\n' :: rest, acc => String.mk acc.reverse :: splitlinesAux rest []
  | '\r' :: rest, acc => String.mk acc.reverse :: splitlinesAux rest []
  | '\n' :: rest, acc => String.mk acc.reverse :: splitlinesAux rest []
  | c :: rest, acc => splitlinesAux rest (c :: acc)

/-- Python `s.splitlines()`. -/
def pySplitlines (s : String) : List String :=
  splitlinesAux s.data []

/-- A header value as stored in the Python dicts: either a string or an
integer (`len(content)`).  Rendering follows f-string interpolation. -/
inductive HVal where
  | str : String → HVal
  | nat : Nat → HVal
deriving DecidableEq, Repr

/-- f-string rendering of a header value (`str` unchanged, `int` in
decimal). -/
def HVal.render : HVal → String
  | .str s => s
  | .nat n => toString n

/-- Python dict insertion for string-valued dicts: an existing key keeps its
position and gets the new value, a new key is appended. -/
def dictInsert (d : List (String × String)) (k v : String) : List (String × String) :=
  if d.any (fun p => p.1 == k) then d.map (fun p => if p.1 == k then (p.1, v) else p)
  else d ++ [(k, v)]

/-- Python dict lookup (`d[k]` / `in`): the value at the first entry whose
key equals `k`. -/
def headerLookup (k : String) (hs : List (String × HVal)) : Option HVal :=
  (hs.find? (fun p => p.1 == k)).map (fun p => p.2)

/-- `Response` of `utils.py`: status code, binary content and header
mapping (in insertion order). -/
structure Response where
  code : Nat
  content : List Nat
  headers : List (String × HVal)
deriving DecidableEq, Repr

/-- The `self.codes` status → reason-phrase table of `Response.__init__`,
in the source's insertion order. -/
def Response.codesTable : List (Nat × String) :=
  [(404, "Not Found"), (200, "OK"), (405, "Method Not Allowed"),
   (301, "Moved Permanently"), (400, "Bad Request")]

/-- The header serialization loop of `Response.build`: each entry as
`"<name>: <value>\r\n"`. -/
def renderHeaders : List (String × HVal) → String
  | [] => ""
  | (k, v) :: rest => k ++ ": " ++ v.render ++ "\r\n" ++ renderHeaders rest

/-- `Response.build`: `"HTTP/1.1 <code> <phrase>\r\n"`, the serialized
headers, a blank line, then the raw content bytes.  `none` models the
`KeyError` raised when the status code is not in the table. -/
def Response.build (r : Response) : Option (List Nat) :=
  match (Response.codesTable.find? (fun p => p.1 == r.code)).map (fun p => p.2) with
  | none => none
  | some phrase =>
    some (strBytes ("HTTP/1.1 " ++ toString r.code ++ " " ++ phrase ++ "\r\n"
            ++ renderHeaders r.headers ++ "\r\n") ++ r.content)

/-- The external error-page template (`error_template.html`), a collaborator
providing a format string with two placeholders: rendering produces
`pre ++ msg ++ mid ++ msg ++ post`. -/
structure Template where
  pre : String
  mid : String
  post : String

/-- `ErrorResponse.build_html`: render the template with the message filled
into both placeholders and encode it (the `code` argument is accepted and
ignored, as in the source). -/
def ErrorResponse.build_html (t : Template) (code : Nat) (message : String) : List Nat :=
  strBytes (t.pre ++ message ++ t.mid ++ message ++ t.post)

/-- `ErrorResponse.get_headers`: Content-Type, Content-Length, Connection,
in the source's insertion order. -/
def ErrorResponse.get_headers (content : List Nat) : List (String × HVal) :=
  [("Content-Type", HVal.str "text/html"),
   ("Content-Length", HVal.nat content.length),
   ("Connection", HVal.str "close")]

/-- `ErrorResponse.__init__`: build the HTML body, compute its headers and
construct the underlying `Response`. -/
def mkErrorResponse (t : Template) (code : Nat) (message : String) : Response :=
  let content := ErrorResponse.build_html t code message
  { code := code, content := content, headers := ErrorResponse.get_headers content }

/-- The filesystem as seen by the handler: regular files mapped to their
byte contents, plus the set of directory paths.  Paths are the exact
strings the handler passes to `os.path`. -/
structure FileSystem where
  files : List (String × List Nat)
  dirs : List String

/-- `open(p, 'rb').read()`: the contents of the regular file at `p`. -/
def FileSystem.read (fs : FileSystem) (p : String) : Option (List Nat) :=
  (fs.files.find? (fun q => q.1 == p)).map (fun q => q.2)

/-- `os.path.isfile`. -/
def FileSystem.isfile (fs : FileSystem) (p : String) : Bool :=
  (fs.read p).isSome

/-- `os.path.isdir`. -/
def FileSystem.isdir (fs : FileSystem) (p : String) : Bool :=
  fs.dirs.contains p

/-- The component-collapsing loop of CPython `posixpath.normpath`:
drop empty and `"."` components; a `".."` pops the previous component
except at the start of a relative path or after a kept `".."`. -/
def normpathComps (initialSlashes : Nat) (comps : List String) : List String :=
  comps.foldl (fun acc comp =>
    if comp = "" ∨ comp = "." then acc
    else if comp ≠ ".." ∨ (initialSlashes = 0 ∧ acc = []) ∨ acc.getLast? = some ".."
    then acc ++ [comp]
    else acc.dropLast) []

/-- `"/".join` on a component list. -/
def joinSlash : List String → String
  | [] => ""
  | [x] => x
  | x :: y :: rest => x ++ "/" ++ joinSlash (y :: rest)

/-- CPython `posixpath.normpath`: purely lexical normalization. -/
def normpath (path : String) : String :=
  if path = "" then "."
  else
    let initialSlashes : Nat :=
      if pyStartsWith path "//" ∧ ¬ pyStartsWith path "///" then 2
      else if pyStartsWith path "/" then 1 else 0
    let comps := pySplitChar '/' path
    let p := String.mk (List.replicate initialSlashes '/') ++
      joinSlash (normpathComps initialSlashes comps)
    if p = "" then "." else p

/-- CPython `posixpath.join` for two components. -/
def posixJoin (a b : String) : String :=
  if pyStartsWith b "/" then b
  else if a = "" ∨ pyEndsWith a "/" then a ++ b
  else a ++ "/" ++ b

/-- `RequestHandler.get_path`: prepend the document root, append
`index.html` to directory-style paths, then normalize. -/
def RequestHandler.get_path (path : String) : String :=
  let path := "www" ++ path
  let path := if pyEndsWith path "/" then posixJoin path "index.html" else path
  normpath path

/-- `RequestHandler.get_headers`: Content-Length and Connection always,
Content-Type from the last `.`-separated piece of the path
(`path.split(".")[-1]`). -/
def RequestHandler.get_headers (path : String) (content : List Nat) : List (String × HVal) :=
  ("Content-Length", HVal.nat content.length) ::
  ("Connection", HVal.str "close") ::
  (if (pySplitChar '.' path).getLastD "" = "html" then [("Content-Type", HVal.str "text/html")]
   else if (pySplitChar '.' path).getLastD "" = "css" then [("Content-Type", HVal.str "text/css")]
   else [])

/-- `Request` of `utils.py`.  `none` fields model Python attributes that
`parse` leaves unset when the start line is malformed. -/
structure Request where
  valid : Bool
  method : Option String
  path : Option String
  standard : Option String
  headers : List (String × String)
deriving DecidableEq, Repr

/-- The start-line handling of `Request.parse`: `valid`, `method`, `path`
and `standard` from the first line when it splits into exactly three
space-separated tokens. -/
def Request.parseStartLine (l0 : String) : Bool × Option String × Option String × Option String :=
  match pySplitChar ' ' l0 with
  | [a, b, c] => (true, some a, some b, some c)
  | _ => (false, none, none, none)

def Request.parseStart (lines : List String) : Bool × Option String × Option String × Option String :=
  match lines with
  | [] => (false, none, none, none)
  | l0 :: _ => Request.parseStartLine l0

/-- The header loop of `Request.parse`: consume lines until the first empty
line or end of input; each line must unpack as `key, val = line.split(': ')`
(exactly two parts), else a `ValueError` escapes (`none`). -/
def Request.parseHeaders : List String → List (String × String) → Option (List (String × String))
  | [], acc => some acc
  | l :: rest, acc =>
    if l = "" then some acc
    else
      match pySplitColonSpace l with
      | [k, v] => Request.parseHeaders rest (dictInsert acc k v)
      | _ => none

/-- `Request.__init__` / `Request.parse` on the decoded request text:
`none` models an exception escaping the constructor. -/
def Request.parse (data : String) : Option Request :=
  match Request.parseHeaders (pySplitlines data).tail [] with
  | none => none
  | some hs =>
    some { valid := (Request.parseStart (pySplitlines data)).1,
           method := (Request.parseStart (pySplitlines data)).2.1,
           path := (Request.parseStart (pySplitlines data)).2.2.1,
           standard := (Request.parseStart (pySplitlines data)).2.2.2,
           headers := hs }

/-- `RequestHandler.handle`: validate, resolve the path, classify the
target and serve.  `none` models an uncaught exception (an attribute
access on an invalid request, or a read failure after the `isfile`
check). -/
def RequestHandler.handle (fs : FileSystem) (t : Template) (r : Request) : Option Response :=
  if r.valid = false then some (mkErrorResponse t 400 "Error 400: Bad Request")
  else
    match r.method with
    | none => none
    | some m =>
      if pyUpper m ≠ "GET" then some (mkErrorResponse t 405 "Error 405: Invalid Method")
      else
        match r.path with
        | none => none
        | some rp =>
          if ¬ fs.isfile (RequestHandler.get_path rp) then
            if fs.isdir (RequestHandler.get_path rp) then
              some { code := 301, content := [], headers := [("Location", HVal.str (rp ++ "/"))] }
            else some (mkErrorResponse t 404 "Error 404: File not found")
          else if ¬ pyStartsWith (RequestHandler.get_path rp) "www" then
            some (mkErrorResponse t 404 "Error 404: File not found")
          else
            match fs.read (RequestHandler.get_path rp) with
            | none => none
            | some content =>
              some { code := 200, content := content,
                     headers := RequestHandler.get_headers (RequestHandler.get_path rp) content }

/-- The per-request pipeline of `MyWebServer.handle`: parse the raw text,
then dispatch to the request handler. -/
def serveRaw (fs : FileSystem) (t : Template) (data : String) : Option Response :=
  (Request.parse data).bind (fun r => RequestHandler.handle fs t r)

/-! Definitions written from the specification's words, for comparison with
the embedded source. -/

/-- Spec side: a resolved path lies inside the document root `www` when it
names an entry strictly below it. -/
def insideRoot (p : String) : Bool :=
  pyStartsWith p "www/"

/-- Spec side, lexical-scan loop: depth of the walk, `".."` decrements,
real segments increment; the path escapes when depth drops below zero. -/
def escapesGo : List String → Int → Bool
  | [], _ => false
  | s :: rest, d =>
    if s = "" ∨ s = "." then escapesGo rest d
    else if s = ".." then decide (d - 1 < 0) || escapesGo rest (d - 1)
    else escapesGo rest (d + 1)

/-- Spec side: the requested path contains enough `".."` segments to escape
the document root. -/
def escapesRoot (p : String) : Bool :=
  escapesGo (pySplitChar '/' p) 0

/-- Spec side: the fixed status → reason-phrase table as the spec lists
it. -/
def specReason : Nat → String := fun c =>
  if c = 200 then "OK"
  else if c = 301 then "Moved Permanently"
  else if c = 400 then "Bad Request"
  else if c = 404 then "Not Found"
  else if c = 405 then "Method Not Allowed"
  else ""

/-- Spec side: the status line bytes `"HTTP/1.1 <code> <reason-phrase>\r\n"`. -/
def specStatusLine (c : Nat) : List Nat :=
  strBytes ("HTTP/1.1 " ++ toString c ++ " " ++ specReason c ++ "\r\n")

/-- Spec side: each header serialized as `"<name>: <value>\r\n"` in
insertion order. -/
def specHeaderBlock : List (String × HVal) → List Nat
  | [] => []
  | (k, v) :: rest => strBytes (k ++ ": " ++ v.render ++ "\r\n") ++ specHeaderBlock rest

/-- Spec side: the full serialized response — status line, header block,
blank line, then the raw body bytes unmodified. -/
def specSerialize (r : Response) : List Nat :=
  specStatusLine r.code ++ specHeaderBlock r.headers ++ strBytes "\r\n" ++ r.content

/-- Spec side: the headers a 200 file response must carry — Content-Length,
`Connection: close`, and a Content-Type decided by the path's extension. -/
def specServeHeaders (path : String) (content : List Nat) : List (String × HVal) :=
  ("Content-Length", HVal.nat content.length) ::
  ("Connection", HVal.str "close") ::
  (if pyEndsWith path ".html" then [("Content-Type", HVal.str "text/html")]
   else if pyEndsWith path ".css" then [("Content-Type", HVal.str "text/css")]
   else [])

/-! Reference-semantics model for default arguments (used for the header
mapping freshness claim). -/

/-- A heap of Python dict objects; an index into the list is an object
reference. -/
structure ObjHeap where
  dicts : List (List (String × HVal))
deriving DecidableEq, Repr

/-- Dereference a dict object. -/
def ObjHeap.get (h : ObjHeap) (r : Nat) : List (String × HVal) :=
  h.dicts.getD r []

/-- Python dict insertion for header dicts. -/
def dictInsertH (d : List (String × HVal)) (k : String) (v : HVal) : List (String × HVal) :=
  if d.any (fun p => p.1 == k) then d.map (fun p => if p.1 == k then (p.1, v) else p)
  else d ++ [(k, v)]

/-- `d[k] = v` through a reference: mutate the referenced dict object in
place. -/
def ObjHeap.setKey (h : ObjHeap) (r : Nat) (k : String) (v : HVal) : ObjHeap :=
  ⟨h.dicts.set r (dictInsertH (h.dicts.getD r []) k v)⟩

/-- CPython evaluates the default argument `headers={}` of
`Response.__init__` once, at function definition time; every later
construction that omits `headers` binds that same dict object.
`responseDefaultRef` is its reference in the initial heap. -/
def responseDefaultRef : Nat := 0

/-- The heap after the module is loaded: the one pre-allocated default
headers dict, empty. -/
def ObjHeap.initial : ObjHeap := ⟨[[]]⟩

/-- A `Response` as a Python object: the header mapping is held by
reference. -/
structure PyResponse where
  code : Nat
  content : List Nat
  headersRef : Nat
deriving DecidableEq, Repr

/-- `Response.__init__` with reference semantics: an explicit `headers`
argument binds a caller-supplied object; omitting it binds the shared
default dict.  No allocation happens in either case. -/
def Response.initPy (h : ObjHeap) (code : Nat) (content : List Nat)
    (headers : Option Nat) : ObjHeap × PyResponse :=
  match headers with
  | some r => (h, { code := code, content := content, headersRef := r })
  | none => (h, { code := code, content := content, headersRef := responseDefaultRef })

/-! Concrete fixtures for the closed evaluation theorems. -/

/-- A concrete error-page template. -/
def tmpl0 : Template := { pre := "<body>", mid := " - ", post := "</body>" }

/-- A filesystem whose only regular file is `wwwsecret/f`, a sibling of
the document root. -/
def fsSecret : FileSystem := { files := [("wwwsecret/f", [104, 105])], dirs := [] }

/-- A filesystem whose only regular file is `wwwpriv/secret.txt`, a
sibling of the document root. -/
def fsOutside : FileSystem :=
  { files := [("wwwpriv/secret.txt", [115, 101, 99, 114, 101, 116])], dirs := [] }

/-! Helper lemmas. -/

theorem strBytes_append (a b : String) : strBytes (a ++ b) = strBytes a ++ strBytes b := by
  simp [strBytes, String.data_append]

theorem specHeaderBlock_eq (hs : List (String × HVal)) :
    strBytes (renderHeaders hs) = specHeaderBlock hs := by
  induction hs with
  | nil =>
    simp [renderHeaders, specHeaderBlock, strBytes]
  | cons p rest ih =>
    obtain ⟨k, v⟩ := p
    simp only [renderHeaders, specHeaderBlock]
    rw [show k ++ ": " ++ v.render ++ "\r\n" ++ renderHeaders rest =
      (k ++ ": " ++ v.render ++ "\r\n") ++ renderHeaders rest by simp [String.ext_iff, String.data_append],
      strBytes_append, ih]

theorem splitChar_ne_nil (c : Char) (l : List Char) : splitChar c l ≠ [] := by
  cases l with
  | nil => simp [splitChar]
  | cons x rest =>
    simp only [splitChar]
    cases h : splitChar c rest with
    | nil => simp
    | cons h t =>
      by_cases hx : x = c <;> simp [hx]

theorem splitChar_of_notMem {c : Char} {l : List Char} (h : c ∉ l) :
    splitChar c l = [l] := by
  induction l with
  | nil => simp [splitChar]
  | cons x rest ih =>
    simp only [List.mem_cons, not_or] at h
    simp [splitChar, ih h.2, Ne.symm h.1]

theorem splitChar_two_of_mem {c : Char} {l : List Char} (h : c ∈ l) :
    ∃ a b t, splitChar c l = a :: b :: t := by
  induction l with
  | nil => simp at h
  | cons x rest ih =>
    by_cases hx : x = c
    · obtain ⟨h1, t1, ht⟩ := List.exists_cons_of_ne_nil (splitChar_ne_nil c rest)
      exact ⟨[], h1, t1, by simp [splitChar, ht, hx]⟩
    · have hc : c ∈ rest := by
        rcases List.mem_cons.mp h with h | h
        · exact absurd h.symm hx
        · exact h
      obtain ⟨a, b, t, hab⟩ := ih hc
      exact ⟨x :: a, b, t, by simp [splitChar, hab, hx]⟩

theorem getLastD_irrel {α : Type} {t : List α} (ht : t ≠ []) (a b : α) :
    t.getLastD a = t.getLastD b := by
  cases t with
  | nil => exact absurd rfl ht
  | cons x xs => rw [List.getLastD_cons, List.getLastD_cons]

/-- The last part of a split is unchanged by anything before the final
separator occurrence. -/
theorem splitChar_getLastD_append (c : Char) (pre s : List Char) :
    (splitChar c (pre ++ c :: s)).getLastD [] = (splitChar c s).getLastD [] := by
  induction pre with
  | nil =>
    obtain ⟨h1, t1, ht⟩ := List.exists_cons_of_ne_nil (splitChar_ne_nil c s)
    simp [splitChar, ht, List.getLastD_cons]
  | cons x pre ih =>
    have hmem : c ∈ pre ++ c :: s := by simp
    obtain ⟨a, b, t, hab⟩ := splitChar_two_of_mem hmem
    by_cases hx : x = c
    · subst hx
      rw [List.cons_append,
        show splitChar x (x :: (pre ++ x :: s)) = [] :: a :: b :: t from by
          simp [splitChar, hab],
        List.getLastD_cons, ← hab]
      exact ih
    · rw [List.cons_append,
        show splitChar c (x :: (pre ++ c :: s)) = (x :: a) :: b :: t from by
          simp [splitChar, hab, if_neg hx],
        List.getLastD_cons, getLastD_irrel (by simp) (x :: a) a]
      rw [show (b :: t).getLastD a = (a :: b :: t).getLastD [] from
          (List.getLastD_cons [] a (b :: t)).symm, ← hab]
      exact ih

/-- Decomposition of a list by the last occurrence of the separator: the
last split part contains no separator, and the list is either that part or
ends in separator-then-that-part. -/
theorem splitChar_getLastD_decomp (c : Char) (l : List Char) :
    c ∉ (splitChar c l).getLastD [] ∧
      (l = (splitChar c l).getLastD [] ∨
        ∃ pre, l = pre ++ c :: (splitChar c l).getLastD []) := by
  induction l with
  | nil => simp [splitChar]
  | cons x rest ih =>
    obtain ⟨h1, t1, ht⟩ := List.exists_cons_of_ne_nil (splitChar_ne_nil c rest)
    by_cases hx : x = c
    · subst hx
      have hcast : (splitChar x (x :: rest)).getLastD [] = (splitChar x rest).getLastD [] := by
        rw [show splitChar x (x :: rest) = [] :: h1 :: t1 from by simp [splitChar, ht],
          List.getLastD_cons, ht]
      rw [hcast]
      refine ⟨ih.1, Or.inr ?_⟩
      rcases ih.2 with h | ⟨pre, hp⟩
      · exact ⟨[], by rw [List.nil_append, ← h]⟩
      · exact ⟨x :: pre, by rw [List.cons_append, ← hp]⟩
    · cases t1 with
      | nil =>
        have hnm : c ∉ rest := by
          intro hc
          obtain ⟨a, b, t, hab⟩ := splitChar_two_of_mem hc
          rw [ht] at hab
          simp at hab
        have hcast : (splitChar c (x :: rest)).getLastD [] = x :: rest := by
          rw [show splitChar c (x :: rest) = [x :: rest] from by
            simp [splitChar, splitChar_of_notMem hnm, if_neg hx]]
          rfl
        rw [hcast]
        exact ⟨by simp [Ne.symm hx, hnm], Or.inl rfl⟩
      | cons t2 t3 =>
        have hcast : (splitChar c (x :: rest)).getLastD [] = (splitChar c rest).getLastD [] := by
          rw [show splitChar c (x :: rest) = (x :: h1) :: t2 :: t3 from by
              simp [splitChar, ht, if_neg hx],
            List.getLastD_cons, getLastD_irrel (by simp) (x :: h1) h1, ht]
          exact (List.getLastD_cons [] h1 (t2 :: t3)).symm
        rw [hcast]
        have hmem : c ∈ rest := by
          by_contra hnm
          rw [splitChar_of_notMem hnm] at ht
          simp at ht
        refine ⟨ih.1, Or.inr ?_⟩
        rcases ih.2 with h | ⟨pre, hp⟩
        · exact absurd (h ▸ hmem) ih.1
        · exact ⟨x :: pre, by rw [List.cons_append, ← hp]⟩

/-- `l.split(c)[-1] = e` characterized by suffixes, when `e` itself has no
separator. -/
theorem splitChar_getLastD_eq_iff (c : Char) (l e : List Char) (he : c ∉ e) :
    (splitChar c l).getLastD [] = e ↔ (l = e ∨ ∃ pre, l = pre ++ c :: e) := by
  constructor
  · intro h
    rcases (splitChar_getLastD_decomp c l).2 with hd | ⟨pre, hp⟩
    · exact Or.inl (h ▸ hd)
    · exact Or.inr ⟨pre, h ▸ hp⟩
  · rintro (rfl | ⟨pre, rfl⟩)
    · simp [splitChar_of_notMem he]
    · rw [splitChar_getLastD_append, splitChar_of_notMem he]
      rfl

theorem getLastD_map {α β : Type} (f : α → β) :
    ∀ (l : List α) (d0 : α), (l.map f).getLastD (f d0) = f (l.getLastD d0) := by
  intro l
  induction l with
  | nil => intro d0; rfl
  | cons x rest ih =>
    intro d0
    rw [List.map_cons, List.getLastD_cons, List.getLastD_cons]
    exact ih x

theorem pySplitChar_getLastD (c : Char) (s : String) :
    (pySplitChar c s).getLastD "" = String.mk ((splitChar c s.data).getLastD []) := by
  unfold pySplitChar
  rw [show ("" : String) = String.mk [] from rfl]
  exact getLastD_map String.mk (splitChar c s.data) []

/-- For a path that starts with `"www"`, the last `.`-separated piece being
`e` is the same as the path ending in `"." ++ e` (with `e` dot-free and not
a possible whole `www…` path). -/
theorem splitDot_eq_iff_endsWith (p e : String) (hw : pyStartsWith p "www" = true)
    (hdot : '.' ∉ e.data) (hne : ∀ t : List Char, 'w' :: t ≠ e.data) :
    ((pySplitChar '.' p).getLastD "" = e) ↔ (pyEndsWith p ("." ++ e) = true) := by
  rw [pySplitChar_getLastD,
    show (String.mk ((splitChar '.' p.data).getLastD []) = e) ↔
      ((splitChar '.' p.data).getLastD [] = e.data) from by
        rw [String.ext_iff],
    splitChar_getLastD_eq_iff '.' p.data e.data hdot]
  unfold pyEndsWith
  rw [List.isSuffixOf_iff_suffix,
    show ("." ++ e).data = '.' :: e.data from by rw [String.data_append]; rfl]
  constructor
  · rintro (hp | ⟨pre, hp⟩)
    · exfalso
      unfold pyStartsWith at hw
      rw [List.isPrefixOf_iff_prefix] at hw
      obtain ⟨t, ht⟩ := hw
      rw [hp, show ("www").data = ['w', 'w', 'w'] from rfl] at ht
      exact hne ('w' :: 'w' :: t) (by simpa using ht)
    · exact ⟨pre, hp.symm⟩
  · rintro ⟨t, ht⟩
    exact Or.inr ⟨t, ht.symm⟩

/-- A path inside the document root passes the handler's
`startswith('www')` check. -/
theorem insideRoot_startsWith {p : String} (h : insideRoot p = true) :
    pyStartsWith p "www" = true := by
  unfold insideRoot at h
  unfold pyStartsWith at h ⊢
  rw [List.isPrefixOf_iff_prefix] at h ⊢
  exact List.IsPrefix.trans ⟨['/'], rfl⟩ h

/-- The source's Content-Type computation agrees with the spec's
extension-based description on every path that passes the root check. -/
theorem get_headers_eq_spec (p : String) (content : List Nat)
    (hw : pyStartsWith p "www" = true) :
    RequestHandler.get_headers p content = specServeHeaders p content := by
  have hhtml : ((pySplitChar '.' p).getLastD "" = "html") ↔ (pyEndsWith p ".html" = true) := by
    rw [show (".html" : String) = "." ++ "html" from rfl]
    exact splitDot_eq_iff_endsWith p "html" hw (by decide) (by
      intro t ht
      rw [show ("html").data = ['h', 't', 'm', 'l'] from rfl] at ht
      simp at ht)
  have hcss : ((pySplitChar '.' p).getLastD "" = "css") ↔ (pyEndsWith p ".css" = true) := by
    rw [show (".css" : String) = "." ++ "css" from rfl]
    exact splitDot_eq_iff_endsWith p "css" hw (by decide) (by
      intro t ht
      rw [show ("css").data = ['c', 's', 's'] from rfl] at ht
      simp at ht)
  unfold RequestHandler.get_headers specServeHeaders
  by_cases h1 : (pySplitChar '.' p).getLastD "" = "html"
  · rw [if_pos h1, if_pos (hhtml.mp h1)]
  · rw [if_neg h1, if_neg (fun hc => h1 (hhtml.mpr hc))]
    by_cases h2 : (pySplitChar '.' p).getLastD "" = "css"
    · rw [if_pos h2, if_pos (hcss.mp h2)]
    · rw [if_neg h2, if_neg (fun hc => h2 (hcss.mpr hc))]

/-! The claims. -/

/-- Claim C1 (evaluation of the code at the failing input): the requested
path `/../wwwpriv/secret.txt` contains enough `".."` segments to escape the
document root (the lexical depth drops below zero), and its resolved path
lies outside the root; yet the handler does not answer 404 — it opens and
serves the outside file with 200, because the resolved path happens to
start with the string `"www"`. -/
theorem c1_traversal_not_rejected :
    escapesRoot "/../wwwpriv/secret.txt" = true ∧
    insideRoot (RequestHandler.get_path "/../wwwpriv/secret.txt") = false ∧
    serveRaw fsOutside tmpl0 "GET /../wwwpriv/secret.txt HTTP/1.1" =
      some { code := 200, content := [115, 101, 99, 114, 101, 116],
             headers := [("Content-Length", HVal.nat 6),
                         ("Connection", HVal.str "close")] } :=
  ⟨rfl, rfl, rfl⟩

/-- Claim C10: the outside-root re-check is only a string test
`path.startswith('www')`: for the requested path `/../wwwsecret/f`,
`get_path` yields `wwwsecret/f` — a sibling of the document root that is
not inside it but does begin with `"www"` — the check passes, and the
target file is opened and served with 200. -/
theorem c10_root_check_bypass :
    RequestHandler.get_path "/../wwwsecret/f" = "wwwsecret/f" ∧
    insideRoot "wwwsecret/f" = false ∧
    pyStartsWith "wwwsecret/f" "www" = true ∧
    serveRaw fsSecret tmpl0 "GET /../wwwsecret/f HTTP/1.1" =
      some { code := 200, content := [104, 105],
             headers := [("Content-Length", HVal.nat 2),
                         ("Connection", HVal.str "close")] } :=
  ⟨rfl, rfl, rfl, rfl⟩

/-- Claim C9 (evaluation of the code at the failing input): two Responses
constructed without an explicit headers argument bind the same dict object
(the default argument evaluated once at definition time), so setting a
header through the first is visible through the second — their header
mappings are shared, not fresh. -/
theorem c9_shared_default_headers :
    ((Response.initPy ObjHeap.initial 301 [] none).2.headersRef =
      (Response.initPy ObjHeap.initial 404 [] none).2.headersRef) ∧
    (((Response.initPy ObjHeap.initial 301 [] none).1.setKey
        (Response.initPy ObjHeap.initial 301 [] none).2.headersRef
        "X-Test" (HVal.str "1")).get
      (Response.initPy ObjHeap.initial 404 [] none).2.headersRef =
      [("X-Test", HVal.str "1")]) :=
  ⟨rfl, rfl⟩

/-- Claim C7, counterexample: `A: b: c` is a `Key: Value` header line whose
value contains a further `": "`; the claim says the parser splits it on the
first occurrence giving the pair `("A", "b: c")`, but the code's
`key, val = line.split(': ')` unpacking raises a ValueError, so no header
mapping is produced at all. -/
theorem c7_counterexample :
    Request.parseHeaders ["A: b: c"] [] = none ∧
    Request.parse "GET / HTTP/1.1\nA: b: c" = none :=
  ⟨rfl, rfl⟩

/-- Claim C8, counterexample: the raw input `GARBAGE\nbadheader` has a
start line that does not split into three tokens, but construction does
not complete with `valid = false` — the header loop still runs and its
unpacking of `badheader` (no `": "`) raises a ValueError. -/
theorem c8_counterexample :
    Request.parse "GARBAGE\nbadheader" = none ∧
    (pySplitChar ' ' ((pySplitlines "GARBAGE\nbadheader").headD "")).length ≠ 3 :=
  ⟨rfl, by decide⟩

/-- Claim C4: for every Response whose status code is one of 200, 301,
400, 404, 405, `build` returns exactly the status line with the fixed
table's reason phrase, each header as `"<name>: <value>\r\n"` in insertion
order, a blank line, and then the raw body bytes unmodified. -/
theorem c4_build_serialization (r : Response)
    (h : r.code ∈ [200, 301, 400, 404, 405]) :
    Response.build r = some (specSerialize r) := by
  obtain ⟨c, content, headers⟩ := r
  have key : ∀ phrase : String,
      (Response.codesTable.find? (fun p => p.1 == c)).map (fun p => p.2) = some phrase →
      specReason c = phrase →
      Response.build { code := c, content := content, headers := headers } =
        some (specSerialize { code := c, content := content, headers := headers }) := by
    intro phrase hp hs
    unfold Response.build
    rw [hp]
    show some (strBytes ("HTTP/1.1 " ++ toString c ++ " " ++ phrase ++ "\r\n"
        ++ renderHeaders headers ++ "\r\n") ++ content) = _
    rw [strBytes_append, strBytes_append, specHeaderBlock_eq]
    unfold specSerialize specStatusLine
    rw [hs]
  simp only [List.mem_cons, List.not_mem_nil, or_false] at h
  rcases h with h | h | h | h | h <;> subst h
  · exact key "OK" rfl rfl
  · exact key "Moved Permanently" rfl rfl
  · exact key "Bad Request" rfl rfl
  · exact key "Not Found" rfl rfl
  · exact key "Method Not Allowed" rfl rfl

/-- Witness for C4 at a concrete response. -/
theorem c4_build_serialization_witness :
    (404 ∈ [200, 301, 400, 404, 405]) ∧
    Response.build { code := 404, content := [104], headers := [("Connection", HVal.str "close")] } =
      some (specSerialize { code := 404, content := [104], headers := [("Connection", HVal.str "close")] }) :=
  ⟨by decide, c4_build_serialization _ (by decide)⟩

theorem parseStart_three {l0 : String} {rest : List String} {a b c : String}
    (h : pySplitChar ' ' l0 = [a, b, c]) :
    Request.parseStart (l0 :: rest) = (true, some a, some b, some c) := by
  show Request.parseStartLine l0 = _
  unfold Request.parseStartLine
  rw [h]

theorem parseStart_not_three {l0 : String} {rest : List String}
    (h : (pySplitChar ' ' l0).length ≠ 3) :
    Request.parseStart (l0 :: rest) = (false, none, none, none) := by
  show Request.parseStartLine l0 = _
  unfold Request.parseStartLine
  cases hs : pySplitChar ' ' l0 with
  | nil => rfl
  | cons a t =>
    cases t with
    | nil => rfl
    | cons b t2 =>
      cases t2 with
      | nil => rfl
      | cons c t3 =>
        cases t3 with
        | nil => exact absurd (by rw [hs]; rfl) h
        | cons d t4 => rfl

/-- Claim C5: for every raw request that parses, the `valid` flag is true
iff the start line splits into exactly three space-separated tokens, and
when they exist, `method`, `path` and `standard` are those three tokens
exactly. -/
theorem c5_start_line (s : String) (r : Request)
    (hp : Request.parse s = some r) :
    ((r.valid = true) ↔ ∃ l0 rest, pySplitlines s = l0 :: rest ∧
        (pySplitChar ' ' l0).length = 3) ∧
    (∀ a b c l0 rest, pySplitlines s = l0 :: rest → pySplitChar ' ' l0 = [a, b, c] →
      r.method = some a ∧ r.path = some b ∧ r.standard = some c) := by
  unfold Request.parse at hp
  cases hh : Request.parseHeaders (pySplitlines s).tail [] with
  | none =>
    rw [hh] at hp
    simp at hp
  | some hs =>
    rw [hh] at hp
    have hr := Option.some.inj hp
    subst hr
    constructor
    · show (Request.parseStart (pySplitlines s)).1 = true ↔ ∃ l0 rest,
        pySplitlines s = l0 :: rest ∧ (pySplitChar ' ' l0).length = 3
      cases hl : pySplitlines s with
      | nil => simp [Request.parseStart]
      | cons l0 rest =>
        by_cases hlen : (pySplitChar ' ' l0).length = 3
        · obtain ⟨a, b, c, habc⟩ := List.length_eq_three.mp hlen
          rw [parseStart_three habc]
          simp only [true_iff]
          exact ⟨l0, rest, rfl, hlen⟩
        · rw [parseStart_not_three hlen]
          simp only [Bool.false_eq_true, false_iff, not_exists]
          rintro l0a resta ⟨hc, hlen3⟩
          rw [List.cons.injEq] at hc
          exact hlen (hc.1 ▸ hlen3)
    · show ∀ a b c l0 rest, pySplitlines s = l0 :: rest → pySplitChar ' ' l0 = [a, b, c] →
        (Request.parseStart (pySplitlines s)).2.1 = some a ∧
        (Request.parseStart (pySplitlines s)).2.2.1 = some b ∧
        (Request.parseStart (pySplitlines s)).2.2.2 = some c
      intro a b c l0 rest hl habc
      rw [hl, parseStart_three habc]
      exact ⟨rfl, rfl, rfl⟩

/-- Witness for C5 at a concrete well-formed request. -/
theorem c5_start_line_witness :
    ({ valid := true, method := some "GET", path := some "/x",
       standard := some "HTTP/1.1", headers := [] : Request }).valid = true :=
  (c5_start_line "GET /x HTTP/1.1" _ rfl).1.mpr ⟨"GET /x HTTP/1.1", [], rfl, rfl⟩

/-- Claim C2: for every parsed request, an invalid request gets the 400
error response; a valid request whose upper-cased method is not `GET`
gets the 405 error response — a 400 takes priority since the method is
not even inspected then. -/
theorem c2_validate_priority (fs : FileSystem) (t : Template) (s : String) (r : Request)
    (hp : Request.parse s = some r) :
    (r.valid = false →
      RequestHandler.handle fs t r = some (mkErrorResponse t 400 "Error 400: Bad Request")) ∧
    (∀ m, r.valid = true → r.method = some m → pyUpper m ≠ "GET" →
      RequestHandler.handle fs t r = some (mkErrorResponse t 405 "Error 405: Invalid Method")) := by
  constructor
  · intro hv
    unfold RequestHandler.handle
    rw [hv, if_pos rfl]
  · intro m hv hm hup
    unfold RequestHandler.handle
    rw [hv, if_neg (by simp), hm]
    show (if pyUpper m ≠ "GET" then _ else _) = _
    rw [if_pos hup]

/-- Witness for C2 at a concrete POST request. -/
theorem c2_validate_priority_witness :
    RequestHandler.handle fsSecret tmpl0
      { valid := true, method := some "POST", path := some "/",
        standard := some "HTTP/1.1", headers := [] } =
      some (mkErrorResponse tmpl0 405 "Error 405: Invalid Method") :=
  (c2_validate_priority fsSecret tmpl0 "POST / HTTP/1.1" _ rfl).2 "POST" rfl rfl (by decide)

theorem errorResponse_CL (t : Template) (c : Nat) (msg : String) (v : HVal)
    (h : headerLookup "Content-Length" (mkErrorResponse t c msg).headers = some v) :
    v = HVal.nat (mkErrorResponse t c msg).content.length := by
  have he : headerLookup "Content-Length" (mkErrorResponse t c msg).headers =
      some (HVal.nat (mkErrorResponse t c msg).content.length) := rfl
  rw [he] at h
  exact (Option.some.inj h).symm

/-- Claim C6: whenever a response produced by the handler, or an error
response, carries a Content-Length header, its value is exactly the byte
length of the response body. -/
theorem c6_content_length (fs : FileSystem) (t : Template) (r : Request)
    (resp : Response) (v : HVal) (c : Nat) (msg : String) :
    (RequestHandler.handle fs t r = some resp →
      headerLookup "Content-Length" resp.headers = some v →
      v = HVal.nat resp.content.length) ∧
    (headerLookup "Content-Length" (mkErrorResponse t c msg).headers = some v →
      v = HVal.nat (mkErrorResponse t c msg).content.length) := by
  refine ⟨?_, errorResponse_CL t c msg v⟩
  intro h1 h2
  unfold RequestHandler.handle at h1
  split at h1
  · rw [← Option.some.inj h1] at h2 ⊢
    exact errorResponse_CL t 400 "Error 400: Bad Request" v h2
  · split at h1
    · exact absurd h1 (by simp)
    · split at h1
      · rw [← Option.some.inj h1] at h2 ⊢
        exact errorResponse_CL t 405 "Error 405: Invalid Method" v h2
      · split at h1
        · exact absurd h1 (by simp)
        · split at h1
          · split at h1
            · rw [← Option.some.inj h1] at h2
              exact absurd h2 (by simp [headerLookup, List.find?])
            · rw [← Option.some.inj h1] at h2 ⊢
              exact errorResponse_CL t 404 "Error 404: File not found" v h2
          · split at h1
            · rw [← Option.some.inj h1] at h2 ⊢
              exact errorResponse_CL t 404 "Error 404: File not found" v h2
            · split at h1
              · exact absurd h1 (by simp)
              · rw [← Option.some.inj h1] at h2 ⊢
                exact (Option.some.inj h2).symm

/-- Witness for C6 through the error-response conjunct. -/
theorem c6_content_length_witness :
    HVal.nat 18 = HVal.nat (mkErrorResponse tmpl0 404 "x").content.length :=
  (c6_content_length fsSecret tmpl0
    { valid := true, method := some "GET", path := some "/",
      standard := some "HTTP/1.1", headers := [] }
    (mkErrorResponse tmpl0 404 "x") (HVal.nat 18) 404 "x").2 rfl

/-- Claim C3: a valid GET request whose resolved path names a regular file
inside the document root is answered 200 with the file's full contents as
body, Content-Length equal to the body's byte length, `Connection: close`,
and a Content-Type of text/html for a `.html` extension, text/css for
`.css`, and no Content-Type header otherwise. -/
theorem c3_serve_file (fs : FileSystem) (t : Template) (s : String) (r : Request)
    (m rp : String)
    (hp : Request.parse s = some r) (hv : r.valid = true) (hm : r.method = some m)
    (hup : pyUpper m = "GET") (hrp : r.path = some rp)
    (hin : insideRoot (RequestHandler.get_path rp) = true)
    (hf : fs.isfile (RequestHandler.get_path rp) = true) :
    RequestHandler.handle fs t r = (fs.read (RequestHandler.get_path rp)).map
      (fun content => { code := 200, content := content,
                        headers := specServeHeaders (RequestHandler.get_path rp) content }) := by
  unfold RequestHandler.handle
  rw [hv, if_neg (by simp), hm]
  show (if pyUpper m ≠ "GET" then _ else _) = _
  rw [if_neg (by rw [hup]; exact fun hne => hne rfl), hrp]
  show (if ¬ fs.isfile (RequestHandler.get_path rp) = true then _ else _) = _
  rw [if_neg (by rw [hf]; exact fun hne => hne rfl),
    if_neg (by rw [insideRoot_startsWith hin]; exact fun hne => hne rfl)]
  cases hr : fs.read (RequestHandler.get_path rp) with
  | none =>
    unfold FileSystem.isfile at hf
    rw [hr] at hf
    exact absurd hf (by simp)
  | some content =>
    show some _ = some _
    rw [get_headers_eq_spec (RequestHandler.get_path rp) content
      (insideRoot_startsWith hin)]

/-- Witness filesystem for C3: one HTML file inside the root. -/
def fsWww : FileSystem := { files := [("www/index.html", [60, 98, 62])], dirs := [] }

/-- Witness for C3 at a concrete GET of `/index.html`. -/
theorem c3_serve_file_witness :
    RequestHandler.handle fsWww tmpl0
      { valid := true, method := some "GET", path := some "/index.html",
        standard := some "HTTP/1.1", headers := [] } =
      (fsWww.read (RequestHandler.get_path "/index.html")).map
        (fun content => { code := 200, content := content,
                          headers := specServeHeaders (RequestHandler.get_path "/index.html") content }) :=
  c3_serve_file fsWww tmpl0 "GET /index.html HTTP/1.1" _ "GET" "/index.html"
    rfl rfl rfl rfl rfl rfl rfl

theorem dictInsert_not_mem {acc : List (String × String)} {k v : String}
    (h : ∀ p ∈ acc, p.1 ≠ k) : dictInsert acc k v = acc ++ [(k, v)] := by
  unfold dictInsert
  rw [if_neg]
  intro hc
  rw [List.any_eq_true] at hc
  obtain ⟨p, hp, hpk⟩ := hc
  exact h p hp (by simpa using hpk)

theorem parseHeaders_block :
    ∀ (kvs : List (String × String)) (acc : List (String × String)) (tl : List String),
    (∀ kv ∈ kvs, pySplitColonSpace (kv.1 ++ ": " ++ kv.2) = [kv.1, kv.2]) →
    (∀ kv ∈ kvs, ∀ p ∈ acc, p.1 ≠ kv.1) →
    (kvs.map Prod.fst).Nodup →
    (tl = [] ∨ ∃ rest, tl = "" :: rest) →
    Request.parseHeaders (kvs.map (fun kv => kv.1 ++ ": " ++ kv.2) ++ tl) acc =
      some (acc ++ kvs) := by
  intro kvs
  induction kvs with
  | nil =>
    intro acc tl hsplit hdisj hnodup htl
    rcases htl with rfl | ⟨rest, rfl⟩
    · simp [Request.parseHeaders]
    · simp [Request.parseHeaders]
  | cons kv t ih =>
    intro acc tl hsplit hdisj hnodup htl
    obtain ⟨k, v⟩ := kv
    have hline : ¬ ((k ++ ": " ++ v) = "") := by
      intro he
      have hsp := hsplit (k, v) (by simp)
      rw [he] at hsp
      rw [show pySplitColonSpace "" = [String.mk []] from rfl] at hsp
      simp at hsp
    show Request.parseHeaders ((k ++ ": " ++ v) :: (t.map _ ++ tl)) acc = _
    unfold Request.parseHeaders
    rw [if_neg hline, hsplit (k, v) (by simp)]
    show Request.parseHeaders (t.map _ ++ tl) (dictInsert acc k v) = _
    rw [dictInsert_not_mem (fun p hp => hdisj (k, v) (by simp) p hp)]
    have hk_not : k ∉ t.map Prod.fst := (List.nodup_cons.mp hnodup).1
    rw [ih (acc ++ [(k, v)]) tl
      (fun kv' h' => hsplit kv' (List.mem_cons_of_mem _ h'))
      (by
        intro kv' ht' p hp
        rcases List.mem_append.mp hp with hp | hp
        · exact hdisj kv' (List.mem_cons_of_mem _ ht') p hp
        · have hpk : p = (k, v) := by simpa using hp
          subst hpk
          intro hkk
          have hkv1 : k = kv'.1 := hkk
          exact hk_not (hkv1 ▸ List.mem_map_of_mem Prod.fst ht'))
      (List.nodup_cons.mp hnodup).2 htl]
    simp

/-- Claim C7, amended: for header blocks whose lines each split on `": "`
into exactly their key and value (one separator occurrence) and whose keys
are distinct, the parsed mapping holds exactly those pairs in order and in
original casing, whether the block ends at a blank line (anything after it
unparsed) or at end of input. -/
theorem c7_headers (kvs : List (String × String)) (rest : List String)
    (hsplit : ∀ kv ∈ kvs, pySplitColonSpace (kv.1 ++ ": " ++ kv.2) = [kv.1, kv.2])
    (hnodup : (kvs.map Prod.fst).Nodup) :
    Request.parseHeaders (kvs.map (fun kv => kv.1 ++ ": " ++ kv.2) ++ "" :: rest) [] =
      some kvs ∧
    Request.parseHeaders (kvs.map (fun kv => kv.1 ++ ": " ++ kv.2)) [] = some kvs := by
  constructor
  · simpa using parseHeaders_block kvs [] ("" :: rest) hsplit (by simp) hnodup
      (Or.inr ⟨rest, rfl⟩)
  · simpa using parseHeaders_block kvs [] [] hsplit (by simp) hnodup (Or.inl rfl)

/-- Witness for C7 at a concrete two-header block followed by a blank line
and an unparsed junk line. -/
theorem c7_headers_witness :
    Request.parseHeaders ([("Host", "example.com"), ("Accept", "text/html")].map
        (fun kv => kv.1 ++ ": " ++ kv.2) ++ "" :: ["junk"]) [] =
      some [("Host", "example.com"), ("Accept", "text/html")] ∧
    Request.parseHeaders ([("Host", "example.com"), ("Accept", "text/html")].map
        (fun kv => kv.1 ++ ": " ++ kv.2)) [] =
      some [("Host", "example.com"), ("Accept", "text/html")] :=
  c7_headers _ ["junk"] (by decide) (by decide)

theorem parseHeaders_total :
    ∀ (lines : List String) (acc : List (String × String)),
    (∀ l ∈ lines.takeWhile (fun x => x ≠ ""), (pySplitColonSpace l).length = 2) →
    ∃ hs, Request.parseHeaders lines acc = some hs := by
  intro lines
  induction lines with
  | nil =>
    intro acc h
    exact ⟨acc, rfl⟩
  | cons l rest ih =>
    intro acc h
    by_cases hl : l = ""
    · subst hl
      exact ⟨acc, rfl⟩
    · have hmem : l ∈ (l :: rest).takeWhile (fun x => x ≠ "") := by
        rw [List.takeWhile_cons_of_pos (by simpa using hl)]
        exact List.mem_cons_self _ _
      obtain ⟨k, v, hkv⟩ := List.length_eq_two.mp (h l hmem)
      obtain ⟨hs, hh⟩ := ih (dictInsert acc k v) (by
        intro la hla
        exact h la (by
          rw [List.takeWhile_cons_of_pos (by simpa using hl)]
          exact List.mem_cons_of_mem _ hla))
      refine ⟨hs, ?_⟩
      show Request.parseHeaders (l :: rest) acc = some hs
      unfold Request.parseHeaders
      rw [if_neg hl, hkv]
      exact hh

/-- Claim C8, amended: if the start line does not split into exactly three
tokens and every header line up to the first blank line splits on `": "`
into exactly two parts, then construction completes normally with `valid`
false. -/
theorem c8_invalid_start (s : String)
    (hstart : ∀ l0 ∈ (pySplitlines s).take 1, (pySplitChar ' ' l0).length ≠ 3)
    (hhdr : ∀ l ∈ (pySplitlines s).tail.takeWhile (fun x => x ≠ ""),
      (pySplitColonSpace l).length = 2) :
    (Request.parse s).map Request.valid = some false := by
  obtain ⟨hs, hh⟩ := parseHeaders_total (pySplitlines s).tail [] hhdr
  unfold Request.parse
  rw [hh]
  show some (Request.parseStart (pySplitlines s)).1 = some false
  cases hl : pySplitlines s with
  | nil => rfl
  | cons l0 rest =>
    rw [parseStart_not_three (hstart l0 (by rw [hl]; simp))]

/-- Witness for C8 at a concrete malformed start line with a well-formed
header line. -/
theorem c8_invalid_start_witness :
    (Request.parse "GARBAGE\nHost: x").map Request.valid = some false :=
  c8_invalid_start "GARBAGE\nHost: x" (by decide) (by decide)
